import Mathlib

set_option autoImplicit false

namespace MediReach

/-! Shallow embedding of the MediReach appointment system's availability,
slot-generation and booking logic, translated from
`server/models/Doctor.js`, `server/models/Appointment.js`,
`server/controllers/doctorController.js` and the appointment controller
(`create` / `update` / `remove`).  Instants are naturals counting
milliseconds in the server's fixed local frame (the source performs no
timezone conversion); wall-clock times are the hour/minute pairs produced
by `split(':').map(Number)` on the stored "HH:MM" strings. -/

/-- A wall-clock time of day, as parsed by `split(':').map(Number)` in
`getSlots`.  The source performs no bounds check on the parsed numbers. -/
structure TimeOfDay where
  hour : Nat
  min : Nat
deriving Repr, DecidableEq

/-- Millisecond offset from local midnight produced by
`setHours(hour, min, 0, 0)`. -/
def TimeOfDay.toMs (t : TimeOfDay) : Nat :=
  (t.hour * 60 + t.min) * 60000

/-- One entry of `doctorSchema.availability` (`availabilitySlotSchema`). -/
structure AvailabilitySlot where
  dayOfWeek : Nat
  startTime : TimeOfDay
  endTime : TimeOfDay
  isAvailable : Bool
deriving Repr, DecidableEq

/-- The fields of a `Doctor` document consumed by the slot/booking logic.
`slotDuration` is in minutes; the schema confines it to the enum
`[15, 30, 45, 60]`, hence it is positive. `user` is the owning user id
(`doctorSchema.user`), distinct from the doctor profile id. -/
structure Doctor where
  id : Nat
  user : Nat
  slotDuration : Nat
  acceptingNewPatients : Bool
  consultationFee : Int
  availability : List AvailabilitySlot
deriving Repr, DecidableEq

/-- The two independent notes fields of `appointmentSchema.notes`. -/
structure Notes where
  patient : String
  doctor : String
deriving Repr, DecidableEq

/-- The fee snapshot of `appointmentSchema.fee` (`paidAt` omitted: no
claim mentions it). -/
structure Fee where
  amount : Int
  paid : Bool
deriving Repr, DecidableEq

/-- An `Appointment` document.  References are ids; `dateTime` and
`endTime` are millisecond instants. -/
structure Appointment where
  id : Nat
  patient : Nat
  doctor : Nat
  dateTime : Nat
  endTime : Nat
  status : String
  type : String
  reason : String
  symptoms : List String
  notes : Notes
  prescription : Option String
  fee : Fee
  cancelledBy : Option String
  cancellationReason : String
deriving Repr, DecidableEq

/-- `appointmentSchema.status` enum. -/
def statusEnum : List String :=
  ["pending", "confirmed", "completed", "cancelled", "no-show"]

/-- `appointmentSchema.type` enum. -/
def typeEnum : List String :=
  ["in-person", "video", "phone"]

/-- `appointmentSchema.cancelledBy` enum (the schema also allows `null`,
modelled as `none`). -/
def cancelledByEnum : List String :=
  ["patient", "doctor", "system"]

/-- A calendar date as `getSlots` consumes it: the millisecond instant of
its local midnight (`setHours(0,0,0,0)`) and its `getDay()` weekday. -/
structure CalDate where
  dayStart : Nat
  dayOfWeek : Nat
deriving Repr, DecidableEq

/-- Decidable equality of results, so that witnesses can evaluate the
embedded operations on concrete inputs. -/
instance instDecEqExcept {ε α : Type} [DecidableEq ε] [DecidableEq α] :
    DecidableEq (Except ε α) := fun x y =>
  match x, y with
  | .ok a, .ok b =>
      if h : a = b then .isTrue (by rw [h])
      else .isFalse (by intro hc; cases hc; exact h rfl)
  | .error e, .error f =>
      if h : e = f then .isTrue (by rw [h])
      else .isFalse (by intro hc; cases hc; exact h rfl)
  | .ok _, .error _ => .isFalse (by intro hc; cases hc)
  | .error _, .ok _ => .isFalse (by intro hc; cases hc)

/-- JavaScript truthiness of an optional string request field: absent and
empty strings are falsy, every other string is truthy. -/
def truthy : Option String → Bool
  | none => false
  | some s => !(s == "")

/-- `o || dflt` for an optional string request field. -/
def jsOr (o : Option String) (dflt : String) : String :=
  match o with
  | some s => if s == "" then dflt else s
  | none => dflt

/-- The slot-building loop of `getSlots`
(`while (current < endTime) { slots.push(current); current += slotDuration }`).
The loop body pushes the current instant and then advances by `step`
milliseconds.  The `0 < step` conjunct only makes the function total in
Lean; the schema confines `slotDuration` to `[15, 30, 45, 60]`, so every
call from the embedded code has `0 < step`. -/
def slotLoop (current endT step : Nat) : List Nat :=
  if _h : current < endT ∧ 0 < step then
    current :: slotLoop (current + step) endT step
  else
    []
termination_by endT - current
decreasing_by omega

/-- Slot generation of `getSlots` (doctorController.js): find the first
availability entry for the requested weekday with `isAvailable`, then run
the slot-building loop from `date@startTime` to `date@endTime` in steps of
`slotDuration` minutes. Returns `[]` when no enabled entry exists. -/
def generateSlots (date : CalDate) (doctor : Doctor) : List Nat :=
  match doctor.availability.find? (fun a => a.dayOfWeek == date.dayOfWeek && a.isAvailable) with
  | none => []
  | some w =>
      slotLoop (date.dayStart + w.startTime.toMs) (date.dayStart + w.endTime.toMs)
        (doctor.slotDuration * 60000)

/-- `setHours(0, 0, 0, 0)` on the requested date. -/
def startOfDay (date : CalDate) : Nat := date.dayStart

/-- `setHours(23, 59, 59, 999)` on the requested date. -/
def endOfDay (date : CalDate) : Nat := date.dayStart + 86399999

/-- The booked-appointments query of `getSlots`:
`{ doctor, dateTime: { $gte: startOfDay, $lte: endOfDay }, status: { $nin: ['cancelled'] } }`. -/
def bookedQuery (doctorId : Nat) (date : CalDate) (a : Appointment) : Bool :=
  a.doctor == doctorId
    && decide (startOfDay date ≤ a.dateTime)
    && decide (a.dateTime ≤ endOfDay date)
    && !(a.status == "cancelled")

/-- The `dateTime` instants of the booked appointments
(`bookedAppointments.map(a => a.dateTime.getTime())`). -/
def bookedTimes (appts : List Appointment) (doctorId : Nat) (date : CalDate) : List Nat :=
  (appts.filter (bookedQuery doctorId date)).map (fun a => a.dateTime)

/-- The filtering step of `getSlots`:
`slots.filter(slot => !bookedTimes.includes(slot.getTime()) && slot > new Date())`.
The locale-formatted display string attached afterwards is
presentation-only and omitted here. -/
def filterAvailable (slots : List Nat) (booked : List Nat) (now : Nat) : List Nat :=
  slots.filter (fun s => !booked.contains s && decide (now < s))

/-- The whole slot pipeline of `getSlots` for an existing doctor and a
present `date` parameter: generate candidates, then remove booked and
past instants. -/
def getSlots (doctor : Doctor) (date : CalDate) (appts : List Appointment) (now : Nat) : List Nat :=
  filterAvailable (generateSlots date doctor) (bookedTimes appts doctor.id date) now

/-- `Appointment.isSlotAvailable` (Appointment.js): true iff `findOne` on
`{ doctor, dateTime, status: { $nin: ['cancelled'] } }` — with
`_id: { $ne: excludeId }` added when `excludeId` is given — finds nothing. -/
def isSlotAvailable (appts : List Appointment) (doctorId dateTime : Nat)
    (excludeId : Option Nat) : Bool :=
  (appts.find? (fun a =>
    a.doctor == doctorId && a.dateTime == dateTime && !(a.status == "cancelled")
      && (match excludeId with
          | none => true
          | some e => !(a.id == e)))).isNone

/-- The request body of `POST /appointments` as the appointment
controller's `create` destructures it. -/
structure CreateRequest where
  doctorId : Nat
  dateTime : Nat
  type : Option String
  reason : String
  symptoms : Option (List String)
  notes : Option String
deriving Repr, DecidableEq

/-- The three error exits of the create path. -/
inductive CreateError where
  | notFound
  | notAccepting
  | slotUnavailable
deriving Repr, DecidableEq

/-- The HTTP status each create error is sent with. -/
def CreateError.httpStatus : CreateError → Nat
  | .notFound => 404
  | .notAccepting => 400
  | .slotUnavailable => 400

/-- `Doctor.findById(doctorId)`. -/
def findDoctor (doctors : List Doctor) (doctorId : Nat) : Option Doctor :=
  doctors.find? (fun d => d.id == doctorId)

/-- The appointment controller's `create`: look up the doctor (404 when
absent), reject when not accepting new patients (400), reject when the
slot is unavailable (400), otherwise build and persist the appointment
with `endTime = dateTime + slotDuration` minutes, `status` defaulting to
`pending`, and a fee snapshot of the doctor's current `consultationFee`.
Mongoose validation of the caller-supplied body fields (required `reason`,
`type` enum) is below the granularity of the claims about this path and is
not modelled; the persisted enum fields written by the code itself are the
schema defaults. -/
def create (doctors : List Doctor) (appts : List Appointment)
    (patientId newId : Nat) (req : CreateRequest) :
    Except CreateError (Appointment × List Appointment) :=
  match findDoctor doctors req.doctorId with
  | none => .error .notFound
  | some doctor =>
      if !doctor.acceptingNewPatients then .error .notAccepting
      else if !isSlotAvailable appts req.doctorId req.dateTime none then .error .slotUnavailable
      else
        let appointment : Appointment := {
          id := newId
          patient := patientId
          doctor := req.doctorId
          dateTime := req.dateTime
          endTime := req.dateTime + doctor.slotDuration * 60000
          status := "pending"
          type := jsOr req.type "in-person"
          reason := req.reason
          symptoms := req.symptoms.getD []
          notes := { patient := jsOr req.notes "", doctor := "" }
          prescription := none
          fee := { amount := doctor.consultationFee, paid := false }
          cancelledBy := none
          cancellationReason := "" }
        .ok (appointment, appts ++ [appointment])

/-- The request body of `PUT /appointments/:id` as `update` destructures
it (`status`, `notes`, `prescription`, and `reason` read in the
cancellation branch). -/
structure UpdateRequest where
  status : Option String
  notes : Option String
  prescription : Option String
  reason : Option String
deriving Repr, DecidableEq

/-- The `updates` object assembled by the update controller; `none` means
the key is absent from the `$set`. -/
structure Updates where
  status : Option String := none
  notesPatient : Option String := none
  notesDoctor : Option String := none
  prescription : Option String := none
  cancelledBy : Option String := none
  cancellationReason : Option String := none
deriving Repr, DecidableEq

/-- The field gating of the update controller:
patient actors may stage their own notes; doctor actors may stage status,
doctor notes and prescription; a body with `status === 'cancelled'`
additionally stages `status`, `cancelledBy = req.user.role` and
`cancellationReason = req.body.reason || ''`. -/
def computeUpdates (isPatient isDoctor : Bool) (actorRole : String)
    (req : UpdateRequest) : Updates :=
  let u : Updates := {}
  let u := if isPatient && truthy req.notes then { u with notesPatient := req.notes } else u
  let u :=
    if isDoctor then
      let u := if truthy req.status then { u with status := req.status } else u
      let u := if truthy req.notes then { u with notesDoctor := req.notes } else u
      if truthy req.prescription then { u with prescription := req.prescription } else u
    else u
  if req.status = some "cancelled" then
    { u with
      status := some "cancelled"
      cancelledBy := some actorRole
      cancellationReason := some (jsOr req.reason "") }
  else u

/-- `runValidators: true` on `findByIdAndUpdate`: mongoose runs the schema
validators of exactly the updated paths.  Of the paths this controller can
stage, only `status` and `cancelledBy` carry validators (their enums). -/
def validUpdates (u : Updates) : Bool :=
  (match u.status with
   | none => true
   | some s => statusEnum.contains s)
  && (match u.cancelledBy with
      | none => true
      | some c => cancelledByEnum.contains c)

/-- Apply a `$set` of the staged paths to a stored appointment. -/
def applyUpdates (u : Updates) (a : Appointment) : Appointment :=
  { a with
    status := u.status.getD a.status
    notes := { patient := u.notesPatient.getD a.notes.patient
               doctor := u.notesDoctor.getD a.notes.doctor }
    prescription := match u.prescription with
                    | none => a.prescription
                    | some p => some p
    cancelledBy := match u.cancelledBy with
                   | none => a.cancelledBy
                   | some c => some c
    cancellationReason := u.cancellationReason.getD a.cancellationReason }

/-- `Doctor.findOne({ user: userId })`. -/
def findDoctorByUser (doctors : List Doctor) (userId : Nat) : Option Doctor :=
  doctors.find? (fun d => d.user == userId)

/-- The `isDoctor` test of the update controller: the actor owns a doctor
profile and that profile is the appointment's doctor. -/
def isDoctorOf (doctors : List Doctor) (userId : Nat) (a : Appointment) : Bool :=
  match findDoctorByUser doctors userId with
  | none => false
  | some d => a.doctor == d.id

/-- The error exits shared by the update and remove paths. -/
inductive UpdateError where
  | notFound
  | forbidden
  | validationFailed
deriving Repr, DecidableEq

/-- Persisting a document write by `_id`
(`findByIdAndUpdate` / `save` on a fetched document). -/
def replaceById (appts : List Appointment) (apptId : Nat) (updated : Appointment) :
    List Appointment :=
  appts.map (fun b => if b.id == apptId then updated else b)

/-- The appointment controller's `update`: 404 when absent; 403 unless
the actor is the appointment's patient, its doctor, or an admin;
otherwise the role-gated `$set` is applied with `runValidators`. -/
def update (doctors : List Doctor) (appts : List Appointment)
    (apptId actorUserId : Nat) (actorRole : String) (req : UpdateRequest) :
    Except UpdateError (Appointment × List Appointment) :=
  match appts.find? (fun a => a.id == apptId) with
  | none => .error .notFound
  | some appointment =>
      let isPatient := appointment.patient == actorUserId
      let isDoctor := isDoctorOf doctors actorUserId appointment
      if !isPatient && !isDoctor && !(actorRole == "admin") then .error .forbidden
      else
        let updates := computeUpdates isPatient isDoctor actorRole req
        if validUpdates updates then
          let updated := applyUpdates updates appointment
          .ok (updated, replaceById appts apptId updated)
        else .error .validationFailed

/-- The three field writes of the remove (cancel) path:
`status = 'cancelled'`, `cancelledBy = req.user.role`,
`cancellationReason = req.body.reason || 'Cancelled by user'`. -/
def cancelUpd (a : Appointment) (actorRole : String) (reason : Option String) : Appointment :=
  { a with
    status := "cancelled"
    cancelledBy := some actorRole
    cancellationReason := jsOr reason "Cancelled by user" }

/-- Full-document validation run by `save()` (default
`validateModifiedOnly` is off): the schema enum checks relevant to this
record (`status`, `type`, `cancelledBy`; the remaining validators concern
paths the cancel write never touches and that hold for any stored
document). -/
def docEnumsValid (a : Appointment) : Bool :=
  statusEnum.contains a.status
    && typeEnum.contains a.type
    && (match a.cancelledBy with
        | none => true
        | some c => cancelledByEnum.contains c)

/-- The appointment controller's `remove` (DELETE, soft cancel): 404 when
absent; 403 unless the actor is the owning patient or an admin; otherwise
the three cancellation fields are written and the document saved. -/
def remove (appts : List Appointment) (apptId actorId : Nat)
    (actorRole : String) (reason : Option String) :
    Except UpdateError (List Appointment) :=
  match appts.find? (fun a => a.id == apptId) with
  | none => .error .notFound
  | some appointment =>
      if !(appointment.patient == actorId) && !(actorRole == "admin") then .error .forbidden
      else
        let updated := cancelUpd appointment actorRole reason
        if docEnumsValid updated then .ok (replaceById appts apptId updated)
        else .error .validationFailed

/-- The document predicate of the unique index's
`partialFilterExpression: { status: { $ne: 'cancelled' } }`
(Appointment.js, the double-booking index). -/
def inUniqueIndex (a : Appointment) : Bool :=
  !(a.status == "cancelled")

/-- Modelled from the spec: the storage engine's write-time enforcement of
the unique index on `{ doctor: 1, dateTime: 1 }` declared in
Appointment.js — the spec treats the persistence engine as an external
collaborator that "must reject the second insert".  An insert is rejected
iff the new document matches the partial filter and some already-stored
document matching the filter carries the same `(doctor, dateTime)` key. -/
def insertAllowed (appts : List Appointment) (a : Appointment) : Bool :=
  !(inUniqueIndex a
      && appts.any (fun b => inUniqueIndex b && b.doctor == a.doctor && b.dateTime == a.dateTime))

/-! Concrete fixtures used by witnesses and counterexamples. -/

/-- A doctor with a Monday 09:00–10:00 window and 30-minute slots. -/
def docA : Doctor :=
  { id := 1, user := 10, slotDuration := 30, acceptingNewPatients := true,
    consultationFee := 100,
    availability := [{ dayOfWeek := 1, startTime := { hour := 9, min := 0 },
                       endTime := { hour := 10, min := 0 }, isAvailable := true }] }

/-- The availability entry of `docA`. -/
def winA : AvailabilitySlot :=
  { dayOfWeek := 1, startTime := { hour := 9, min := 0 },
    endTime := { hour := 10, min := 0 }, isAvailable := true }

/-- A doctor with the same window but 45-minute slots, which do not divide
the 60-minute window. -/
def docB : Doctor :=
  { id := 2, user := 20, slotDuration := 45, acceptingNewPatients := true,
    consultationFee := 80,
    availability := [{ dayOfWeek := 1, startTime := { hour := 9, min := 0 },
                       endTime := { hour := 10, min := 0 }, isAvailable := true }] }

/-- A Monday whose local midnight is instant 0. -/
def dateMon : CalDate := { dayStart := 0, dayOfWeek := 1 }

/-- A stored pending appointment of patient 7 with doctor 1 at Monday
09:00. -/
def aptP : Appointment :=
  { id := 1, patient := 7, doctor := 1, dateTime := 32400000, endTime := 34200000,
    status := "pending", type := "in-person", reason := "checkup", symptoms := [],
    notes := { patient := "", doctor := "" }, prescription := none,
    fee := { amount := 100, paid := false }, cancelledBy := none, cancellationReason := "" }

/-- A second pending appointment competing for the same
`(doctor, dateTime)` key as `aptP`. -/
def aptQ : Appointment :=
  { id := 2, patient := 8, doctor := 1, dateTime := 32400000, endTime := 34200000,
    status := "pending", type := "in-person", reason := "flu", symptoms := [],
    notes := { patient := "", doctor := "" }, prescription := none,
    fee := { amount := 100, paid := false }, cancelledBy := none, cancellationReason := "" }

/-- A create request for doctor 1 at Monday 09:00. -/
def reqCreate : CreateRequest :=
  { doctorId := 1, dateTime := 32400000, type := none, reason := "checkup",
    symptoms := none, notes := none }

/-- The appointment `create` persists for `reqCreate` against `docA`. -/
def aptNew : Appointment :=
  { id := 3, patient := 7, doctor := 1, dateTime := 32400000, endTime := 34200000,
    status := "pending", type := "in-person", reason := "checkup", symptoms := [],
    notes := { patient := "", doctor := "" }, prescription := none,
    fee := { amount := 100, paid := false }, cancelledBy := none, cancellationReason := "" }

/-- An update body requesting cancellation. -/
def reqCancel : UpdateRequest :=
  { status := some "cancelled", notes := none, prescription := none,
    reason := some "emergency" }

/-- An update body carrying notes, a prescription and a non-cancel status. -/
def reqConfirm : UpdateRequest :=
  { status := some "confirmed", notes := some "note", prescription := some "rx",
    reason := none }

/-- An empty update body. -/
def reqNone : UpdateRequest :=
  { status := none, notes := none, prescription := none, reason := none }

/-! Helper lemmas about the slot-building loop. -/

theorem slotLoop_eq (c e s : Nat) :
    slotLoop c e s = if c < e ∧ 0 < s then c :: slotLoop (c + s) e s else [] := by
  rw [slotLoop]
  by_cases h : c < e ∧ 0 < s
  · rw [dif_pos h, if_pos h]
  · rw [dif_neg h, if_neg h]

theorem slotLoop_bounds_aux :
    ∀ n c e s x : Nat, e - c ≤ n → x ∈ slotLoop c e s → c ≤ x ∧ x < e := by
  intro n
  induction n with
  | zero =>
    intro c e s x hn hx
    rw [slotLoop_eq, if_neg (by omega)] at hx
    simp at hx
  | succ n ih =>
    intro c e s x hn hx
    rw [slotLoop_eq] at hx
    by_cases h : c < e ∧ 0 < s
    · rw [if_pos h] at hx
      rcases List.mem_cons.mp hx with rfl | hx
      · omega
      · have := ih (c + s) e s x (by omega) hx
        omega
    · rw [if_neg h] at hx
      simp at hx

theorem mem_slotLoop_bounds (c e s x : Nat) (hx : x ∈ slotLoop c e s) : c ≤ x ∧ x < e :=
  slotLoop_bounds_aux (e - c) c e s x le_rfl hx

theorem slotLoop_length_aux :
    ∀ n c e s : Nat, 0 < s → e - c ≤ n →
      (slotLoop c e s).length = (e - c + s - 1) / s := by
  intro n
  induction n with
  | zero =>
    intro c e s hs hn
    rw [slotLoop_eq, if_neg (by omega)]
    have h0 : e - c = 0 := by omega
    rw [h0, List.length_nil]
    exact (Nat.div_eq_of_lt (by omega)).symm
  | succ n ih =>
    intro c e s hs hn
    by_cases h : c < e
    · rw [slotLoop_eq, if_pos ⟨h, hs⟩, List.length_cons,
        ih (c + s) e s hs (by omega)]
      rcases le_or_lt (e - c) s with hle | hlt
      · have h1 : e - (c + s) = 0 := by omega
        rw [h1]
        have h2 : (0 + s - 1) / s = 0 := Nat.div_eq_of_lt (by omega)
        rw [h2]
        have h3 : e - c + s - 1 = (e - c - 1) + s := by omega
        rw [h3, Nat.add_div_right _ hs, Nat.div_eq_of_lt (by omega)]
      · have h1 : e - (c + s) + s - 1 = (e - c - 1 - s) + s := by omega
        have h2 : e - c + s - 1 = (e - c - 1) + s := by omega
        rw [h1, h2, Nat.add_div_right _ hs, Nat.add_div_right _ hs]
        have h3 : e - c - 1 = (e - c - 1 - s) + s := by omega
        have h4 : (e - c - 1) / s = (e - c - 1 - s + s) / s := by rw [← h3]
        rw [h4, Nat.add_div_right _ hs]
    · rw [slotLoop_eq, if_neg (by omega)]
      have h0 : e - c = 0 := by omega
      rw [h0, List.length_nil]
      exact (Nat.div_eq_of_lt (by omega)).symm

theorem slotLoop_length (c e s : Nat) (hs : 0 < s) :
    (slotLoop c e s).length = (e - c + s - 1) / s :=
  slotLoop_length_aux (e - c) c e s hs le_rfl

theorem slotLoop_get_aux :
    ∀ n c e s k : Nat, 0 < s → e - c ≤ n → k < (slotLoop c e s).length →
      (slotLoop c e s)[k]? = some (c + k * s) := by
  intro n
  induction n with
  | zero =>
    intro c e s k hs hn hk
    rw [slotLoop_eq, if_neg (by omega)] at hk
    simp at hk
  | succ n ih =>
    intro c e s k hs hn hk
    by_cases h : c < e
    · rw [slotLoop_eq, if_pos ⟨h, hs⟩] at hk ⊢
      match k with
      | 0 => simp
      | k + 1 =>
        rw [List.getElem?_cons_succ]
        rw [List.length_cons] at hk
        rw [ih (c + s) e s k hs (by omega) (by omega)]
        congr 1
        ring
    · rw [slotLoop_eq, if_neg (by omega)] at hk
      simp at hk

theorem slotLoop_getElem (c e s k : Nat) (hs : 0 < s) (hk : k < (slotLoop c e s).length) :
    (slotLoop c e s)[k]? = some (c + k * s) :=
  slotLoop_get_aux (e - c) c e s k hs le_rfl hk

theorem mul_add_div_mul (x y z c : Nat) (hz : 0 < z) (hc : 0 < c) (hy : y < c) :
    (x * c + y) / (z * c) = x / z := by
  have h2 : x % z < z := Nat.mod_lt _ hz
  have hlt : x % z * c + y < z * c := by
    calc x % z * c + y < x % z * c + c := by omega
      _ = (x % z + 1) * c := by ring
      _ ≤ z * c := Nat.mul_le_mul_right c h2
  have h1 : x * c + y = x % z * c + y + x / z * (z * c) := by
    conv_lhs => rw [← Nat.div_add_mod x z]
    ring
  rw [h1, Nat.add_mul_div_right _ _ (Nat.mul_pos hz hc), Nat.div_eq_of_lt hlt, Nat.zero_add]

theorem ceil_div_scale (a b c : Nat) (hb : 0 < b) (hc : 0 < c) :
    (a * c + b * c - 1) / (b * c) = (a + b - 1) / b := by
  have key : a * c + b * c - 1 = (a + b - 1) * c + (c - 1) := by
    have h1 : (a + b - 1) * c = a * c + b * c - c := by
      rw [Nat.sub_mul, Nat.add_mul, Nat.one_mul]
    have h2 : c ≤ a * c + b * c := by
      have h3 : 1 * c ≤ b * c := Nat.mul_le_mul_right c hb
      omega
    omega
  rw [key, mul_add_div_mul _ _ _ _ hb hc (by omega)]

/-- C2 (amended): for a doctor with positive slot duration `S` minutes and
an enabled availability window `[start, end)` found for the requested
weekday, the slot-building loop of `getSlots` produces exactly
`ceil((end - start) / S)` slots (not `floor`): the `k`-th slot starts at
`start + k * S` minutes — so the first slot is at `start` and consecutive
starts are exactly `S` minutes apart — and every emitted slot's start is
strictly before `end`; the final slot's start plus `S` may run past `end`
(a partial trailing slot is emitted, not dropped). -/
theorem generateSlots_count (date : CalDate) (doctor : Doctor) (w : AvailabilitySlot)
    (hfind : doctor.availability.find?
      (fun x => x.dayOfWeek == date.dayOfWeek && x.isAvailable) = some w)
    (hS : 0 < doctor.slotDuration) :
      (generateSlots date doctor).length
        = ((w.endTime.hour * 60 + w.endTime.min) - (w.startTime.hour * 60 + w.startTime.min)
            + doctor.slotDuration - 1) / doctor.slotDuration
    ∧ (∀ k, k < (generateSlots date doctor).length →
        (generateSlots date doctor)[k]?
          = some (date.dayStart + ((w.startTime.hour * 60 + w.startTime.min)
              + k * doctor.slotDuration) * 60000))
    ∧ (∀ x ∈ generateSlots date doctor,
        date.dayStart + (w.startTime.hour * 60 + w.startTime.min) * 60000 ≤ x
        ∧ x < date.dayStart + (w.endTime.hour * 60 + w.endTime.min) * 60000) := by
  have hgen : generateSlots date doctor
      = slotLoop (date.dayStart + w.startTime.toMs) (date.dayStart + w.endTime.toMs)
          (doctor.slotDuration * 60000) := by
    unfold generateSlots
    rw [hfind]
  refine ⟨?_, ?_, ?_⟩
  · rw [hgen, slotLoop_length _ _ _ (by positivity)]
    have h1 : date.dayStart + w.endTime.toMs - (date.dayStart + w.startTime.toMs)
        = ((w.endTime.hour * 60 + w.endTime.min) - (w.startTime.hour * 60 + w.startTime.min))
            * 60000 := by
      simp only [TimeOfDay.toMs]
      omega
    rw [h1, ceil_div_scale _ _ _ hS (by norm_num)]
  · intro k hk
    rw [hgen] at hk ⊢
    rw [slotLoop_getElem _ _ _ _ (by positivity) hk]
    congr 1
    simp only [TimeOfDay.toMs]
    ring
  · intro x hx
    rw [hgen] at hx
    have hb := mem_slotLoop_bounds _ _ _ _ hx
    simp only [TimeOfDay.toMs] at hb
    omega

/-- C2 witness: `generateSlots_count` applied to `docA` (Monday
09:00–10:00, 30-minute slots) on a Monday yields a 2-slot list. -/
theorem generateSlots_count_witness :
    (generateSlots dateMon docA).length = 2 := by
  have h := (generateSlots_count dateMon docA winA (by decide) (by decide)).1
  rw [h]
  decide

/-- C2 counterexample: for `docB` (window 09:00–10:00, 45-minute slots)
the loop emits 2 slots — at 09:00 and 09:45 — although the claim predicts
`floor(60 / 45) = 1` slot, and the 09:45 slot's start plus the slot
duration runs past the window's 10:00 end. -/
theorem generateSlots_partial_slot_counterexample :
    generateSlots dateMon docB = [32400000, 35100000]
    ∧ (generateSlots dateMon docB).length ≠ (600 - 540) / docB.slotDuration
    ∧ ∃ x ∈ generateSlots dateMon docB,
        dateMon.dayStart + 600 * 60000 < x + docB.slotDuration * 60000 := by
  have h0 : generateSlots dateMon docB = slotLoop 32400000 36000000 2700000 := rfl
  have h1 : slotLoop 32400000 36000000 2700000
      = 32400000 :: slotLoop 35100000 36000000 2700000 := by
    rw [slotLoop_eq, if_pos (by norm_num)]
  have h2 : slotLoop 35100000 36000000 2700000
      = 35100000 :: slotLoop 37800000 36000000 2700000 := by
    rw [slotLoop_eq, if_pos (by norm_num)]
  have h3 : slotLoop 37800000 36000000 2700000 = [] := by
    rw [slotLoop_eq, if_neg (by norm_num)]
  have hall : generateSlots dateMon docB = [32400000, 35100000] := by
    rw [h0, h1, h2, h3]
  refine ⟨hall, ?_, ?_⟩
  · rw [hall]
    norm_num [docB]
  · refine ⟨35100000, ?_, ?_⟩
    · rw [hall]
      norm_num
    · norm_num [docB, dateMon]

/-- C7: slot generation returns the empty sequence (not an error) when
the requested weekday has no enabled availability entry (absent, or
`isAvailable` false), and likewise when the enabled window found is
zero-length or inverted (`startTime >= endTime`). -/
theorem generateSlots_degenerate (date : CalDate) (doctor : Doctor) :
      ((∀ w ∈ doctor.availability, w.dayOfWeek = date.dayOfWeek → w.isAvailable = false) →
        generateSlots date doctor = [])
    ∧ (∀ w, doctor.availability.find?
          (fun x => x.dayOfWeek == date.dayOfWeek && x.isAvailable) = some w →
        w.endTime.hour * 60 + w.endTime.min ≤ w.startTime.hour * 60 + w.startTime.min →
        generateSlots date doctor = []) := by
  constructor
  · intro hnone
    have hfind : doctor.availability.find?
        (fun x => x.dayOfWeek == date.dayOfWeek && x.isAvailable) = none := by
      rw [List.find?_eq_none]
      intro w hw
      by_cases hday : w.dayOfWeek = date.dayOfWeek
      · simp [hday, hnone w hw hday]
      · simp [hday]
    unfold generateSlots
    rw [hfind]
  · intro w hfind hinv
    have hgen : generateSlots date doctor
        = slotLoop (date.dayStart + w.startTime.toMs) (date.dayStart + w.endTime.toMs)
            (doctor.slotDuration * 60000) := by
      unfold generateSlots
      rw [hfind]
    rw [hgen, slotLoop_eq, if_neg]
    simp only [TimeOfDay.toMs]
    omega

/-- C7 witness: `docA` has no enabled entry for Wednesday (weekday 3), so
slot generation on a Wednesday yields the empty sequence. -/
theorem generateSlots_degenerate_witness :
    generateSlots { dayStart := 0, dayOfWeek := 3 } docA = [] :=
  (generateSlots_degenerate { dayStart := 0, dayOfWeek := 3 } docA).1 (by decide)

/-- C5: every slot returned by the filtering step of `getSlots` starts
strictly after the current instant, and no returned slot's start equals
the `dateTime` of any existing non-cancelled appointment of that doctor.
The hypothesis states well-formedness of the stored "HH:MM" window ends
(a parsed end time denotes a minute of the day), which the source assumes
rather than checks. -/
theorem getSlots_filter_sound (doctor : Doctor) (date : CalDate)
    (appts : List Appointment) (now : Nat)
    (hwf : ∀ w ∈ doctor.availability, w.endTime.hour * 60 + w.endTime.min ≤ 1439) :
    ∀ s ∈ getSlots doctor date appts now,
      now < s ∧ ∀ a ∈ appts, a.doctor = doctor.id → a.status ≠ "cancelled" → a.dateTime ≠ s := by
  intro s hs
  unfold getSlots filterAvailable at hs
  rw [List.mem_filter] at hs
  obtain ⟨hmem, hpred⟩ := hs
  rw [Bool.and_eq_true] at hpred
  obtain ⟨hnb, hnow⟩ := hpred
  refine ⟨of_decide_eq_true hnow, ?_⟩
  intro a ha hdoc hstat heq
  unfold generateSlots at hmem
  cases hfind : doctor.availability.find?
      (fun x => x.dayOfWeek == date.dayOfWeek && x.isAvailable) with
  | none =>
    rw [hfind] at hmem
    simp at hmem
  | some w =>
    rw [hfind] at hmem
    have hb := mem_slotLoop_bounds _ _ _ _ hmem
    have hwe := hwf w (List.mem_of_find?_eq_some hfind)
    have hs1 : startOfDay date ≤ s := by
      unfold startOfDay
      simp only [TimeOfDay.toMs] at hb
      omega
    have hs2 : s ≤ endOfDay date := by
      unfold endOfDay
      simp only [TimeOfDay.toMs] at hb
      omega
    have hq : bookedQuery doctor.id date a = true := by
      unfold bookedQuery
      rw [heq]
      simp [hdoc, hstat, hs1, hs2]
    have hmem2 : s ∈ bookedTimes appts doctor.id date := by
      unfold bookedTimes
      rw [List.mem_map]
      exact ⟨a, List.mem_filter.mpr ⟨ha, hq⟩, heq⟩
    rw [Bool.not_eq_true'] at hnb
    rw [List.contains, List.elem_eq_mem, decide_eq_false_iff_not] at hnb
    exact hnb hmem2

/-- C5 witness: with a stored pending 09:00 appointment for doctor 1, the
filtered slots on that Monday (now = midnight) are all in the future and
avoid the booked instant. -/
theorem getSlots_filter_sound_witness :
    (∀ w ∈ docA.availability, w.endTime.hour * 60 + w.endTime.min ≤ 1439)
    ∧ (∀ s ∈ getSlots docA dateMon [aptP] 0,
        0 < s ∧ ∀ a ∈ [aptP], a.doctor = docA.id → a.status ≠ "cancelled" → a.dateTime ≠ s) :=
  ⟨by decide, getSlots_filter_sound docA dateMon [aptP] 0 (by decide)⟩

/-- C6: `isSlotAvailable doctorId dateTime excludeId` is true iff no
stored appointment of that doctor sits at that exact instant with a
non-cancelled status, excluding the appointment `excludeId` when one is
given.  It is a total boolean-valued read of the store — it mutates
nothing and yields `false`, not an exception, when a match exists. -/
theorem isSlotAvailable_spec (appts : List Appointment) (doctorId dateTime : Nat)
    (excludeId : Option Nat) :
    isSlotAvailable appts doctorId dateTime excludeId = true ↔
      ¬ ∃ a, a ∈ appts ∧ a.doctor = doctorId ∧ a.dateTime = dateTime
          ∧ a.status ≠ "cancelled" ∧ ∀ e, excludeId = some e → a.id ≠ e := by
  unfold isSlotAvailable
  rw [Option.isNone_iff_eq_none, List.find?_eq_none]
  constructor
  · rintro h ⟨a, ha, hdoc, hdt, hstat, hex⟩
    have := h a ha
    cases hxc : excludeId with
    | none => simp [hxc, hdoc, hdt, hstat] at this
    | some e =>
      have hne : a.id ≠ e := hex e hxc
      simp [hxc, hdoc, hdt, hstat, hne] at this
  · intro h a ha hp
    apply h
    cases hxc : excludeId with
    | none =>
      rw [hxc] at hp
      simp only [Bool.and_eq_true, beq_iff_eq, Bool.not_eq_true',
        beq_eq_false_iff_ne, ne_eq, and_true] at hp
      obtain ⟨⟨hd, ht⟩, hs⟩ := hp
      refine ⟨a, ha, hd, ht, hs, ?_⟩
      intro e he
      cases he
    | some v =>
      rw [hxc] at hp
      simp only [Bool.and_eq_true, beq_iff_eq, Bool.not_eq_true',
        beq_eq_false_iff_ne, ne_eq] at hp
      obtain ⟨⟨⟨hd, ht⟩, hs⟩, hid⟩ := hp
      refine ⟨a, ha, hd, ht, hs, ?_⟩
      intro e he
      cases he
      exact hid

/-- C3: the create path's gates, in the order the controller checks
them — a missing doctor yields `notFound` (sent as 404) and persists
nothing; `acceptingNewPatients = false` yields `notAccepting` (400) and
persists nothing; an unavailable slot yields `slotUnavailable` (400) and
persists nothing; and a successful create implies all three preconditions
held and appended exactly the new appointment to the store. -/
theorem create_gates (doctors : List Doctor) (appts : List Appointment)
    (patientId newId : Nat) (req : CreateRequest) :
      (findDoctor doctors req.doctorId = none →
        create doctors appts patientId newId req = .error .notFound
        ∧ CreateError.notFound.httpStatus = 404)
    ∧ (∀ d, findDoctor doctors req.doctorId = some d → d.acceptingNewPatients = false →
        create doctors appts patientId newId req = .error .notAccepting
        ∧ CreateError.notAccepting.httpStatus = 400)
    ∧ (∀ d, findDoctor doctors req.doctorId = some d → d.acceptingNewPatients = true →
        isSlotAvailable appts req.doctorId req.dateTime none = false →
        create doctors appts patientId newId req = .error .slotUnavailable
        ∧ CreateError.slotUnavailable.httpStatus = 400)
    ∧ (∀ a appts', create doctors appts patientId newId req = .ok (a, appts') →
        (∃ d, findDoctor doctors req.doctorId = some d ∧ d.acceptingNewPatients = true)
        ∧ isSlotAvailable appts req.doctorId req.dateTime none = true
        ∧ appts' = appts ++ [a]) := by
  refine ⟨?_, ?_, ?_, ?_⟩
  · intro hnone
    simp [create, hnone, CreateError.httpStatus]
  · intro d hd hacc
    simp [create, hd, hacc, CreateError.httpStatus]
  · intro d hd hacc hslot
    simp [create, hd, hacc, hslot, CreateError.httpStatus]
  · intro a appts' hok
    cases hd : findDoctor doctors req.doctorId with
    | none =>
      simp [create, hd] at hok
    | some d =>
      cases hacc : d.acceptingNewPatients with
      | false =>
        simp [create, hd, hacc] at hok
      | true =>
        cases hslot : isSlotAvailable appts req.doctorId req.dateTime none with
        | false =>
          simp [create, hd, hacc, hslot] at hok
        | true =>
          simp only [create, hd, hacc, hslot, Bool.not_true, Bool.false_eq_true,
            if_false, Except.ok.injEq, Prod.mk.injEq] at hok
          obtain ⟨h1, h2⟩ := hok
          subst h1
          exact ⟨⟨d, rfl, hacc⟩, rfl, h2.symm⟩

/-- C3 witness: with an empty doctor store the create path reports
`notFound` with status 404. -/
theorem create_gates_witness :
    create [] [] 7 3 reqCreate = .error .notFound
    ∧ CreateError.notFound.httpStatus = 404 :=
  (create_gates [] [] 7 3 reqCreate).1 (by decide)

/-- C4: a successfully created appointment has
`endTime = dateTime + slotDuration` minutes exactly, a fee snapshot equal
to the doctor's `consultationFee` at creation time, and status `pending`;
and the snapshot is never recomputed later — neither the update path's
`$set` nor the cancel path's field writes touch the fee. -/
theorem create_snapshot (doctors : List Doctor) (appts : List Appointment)
    (patientId newId : Nat) (req : CreateRequest) (d : Doctor)
    (a : Appointment) (appts' : List Appointment)
    (hd : findDoctor doctors req.doctorId = some d)
    (hok : create doctors appts patientId newId req = .ok (a, appts')) :
      a.endTime = a.dateTime + d.slotDuration * 60000
    ∧ a.fee.amount = d.consultationFee
    ∧ a.status = "pending"
    ∧ (∀ u : Updates, (applyUpdates u a).fee.amount = a.fee.amount)
    ∧ (∀ (role : String) (reason : Option String),
        (cancelUpd a role reason).fee.amount = a.fee.amount) := by
  cases hacc : d.acceptingNewPatients with
  | false =>
    simp [create, hd, hacc] at hok
  | true =>
    cases hslot : isSlotAvailable appts req.doctorId req.dateTime none with
    | false =>
      simp [create, hd, hacc, hslot] at hok
    | true =>
      simp only [create, hd, hacc, hslot, Bool.not_true, Bool.false_eq_true,
        if_false, Except.ok.injEq, Prod.mk.injEq] at hok
      obtain ⟨ha, -⟩ := hok
      subst ha
      refine ⟨rfl, rfl, rfl, ?_, ?_⟩
      · intro u
        rfl
      · intro role reason
        rfl

/-- C4 witness: creating against `docA` (30-minute slots, fee 100) yields
`aptNew` with a 30-minute span, the fee snapshot, and pending status. -/
theorem create_snapshot_witness :
      aptNew.endTime = aptNew.dateTime + docA.slotDuration * 60000
    ∧ aptNew.fee.amount = docA.consultationFee
    ∧ aptNew.status = "pending"
    ∧ (∀ u : Updates, (applyUpdates u aptNew).fee.amount = aptNew.fee.amount)
    ∧ (∀ (role : String) (reason : Option String),
        (cancelUpd aptNew role reason).fee.amount = aptNew.fee.amount) :=
  create_snapshot [docA] [] 7 3 reqCreate docA aptNew [aptNew] (by decide) (by decide)

theorem replaceById_self (appts : List Appointment) (apptId : Nat) (a : Appointment)
    (hfind : appts.find? (fun x => x.id == apptId) = some a)
    (hnodup : (appts.map (fun x => x.id)).Nodup) :
    replaceById appts apptId a = appts := by
  have hmem : a ∈ appts := List.mem_of_find?_eq_some hfind
  have hpa : a.id = apptId := by
    have := List.find?_some hfind
    simpa using this
  unfold replaceById
  conv_rhs => rw [← List.map_id appts]
  apply List.map_congr_left
  intro b hb
  by_cases hid : (b.id == apptId) = true
  · have hbid : b.id = apptId := by simpa using hid
    have hba : b = a := List.inj_on_of_nodup_map hnodup hb hmem (by rw [hbid, hpa])
    simp [hid, hba]
  · rw [Bool.not_eq_true] at hid
    simp [hid]

/-- C10: an admin actor who is neither the appointment's patient nor its
doctor, requesting anything but a cancellation, passes authorization but
applies an empty `$set`: the operation succeeds and returns the
appointment with every field unchanged, and the store is untouched
(admin-supplied notes, prescription and non-cancel status values are
silently ignored by the role gating). -/
theorem update_admin_noop (doctors : List Doctor) (appts : List Appointment)
    (apptId actorUserId : Nat) (req : UpdateRequest) (a : Appointment)
    (hfind : appts.find? (fun x => x.id == apptId) = some a)
    (hnodup : (appts.map (fun x => x.id)).Nodup)
    (hnp : a.patient ≠ actorUserId)
    (hnd : isDoctorOf doctors actorUserId a = false)
    (hst : req.status ≠ some "cancelled") :
    update doctors appts apptId actorUserId "admin" req = .ok (a, appts) := by
  have hbp : (a.patient == actorUserId) = false := by simpa using hnp
  have hcu : computeUpdates false false "admin" req = {} := by
    unfold computeUpdates
    simp [hst]
  have happ : applyUpdates {} a = a := rfl
  have hval : validUpdates {} = true := rfl
  simp only [update, hfind, hbp, hnd, hcu, happ, hval, Bool.not_false, Bool.and_self,
    beq_self_eq_true, Bool.not_true, Bool.and_false, Bool.false_eq_true, if_false, if_true]
  rw [replaceById_self appts apptId a hfind hnodup]

/-- C10 witness: an admin (user 99, unrelated to `aptP`) sending an empty
body gets the appointment back unchanged, with the store unchanged. -/
theorem update_admin_noop_witness :
    update [] [aptP] 1 99 "admin" reqNone = .ok (aptP, [aptP]) :=
  update_admin_noop [] [aptP] 1 99 reqNone aptP (by decide) (by decide) (by decide)
    (by decide) (by decide)

/-- C9 (amended): a cancel (DELETE) by an actor who is neither the owning
patient nor an admin is Forbidden; a cancel by the owning patient (role
`patient`) sets `status = cancelled`, `cancelledBy = "patient"` — the
actor's role — and `cancellationReason` to the given reason or the default
text, and keeps the record in the store (soft delete, same store size);
a cancel by an admin writes `cancelledBy = "admin"`, which the schema's
`cancelledBy` enum rejects, so the save fails validation and the stored
record is unchanged. -/
theorem cancel_soft_delete (appts : List Appointment) (apptId actorId : Nat)
    (reason : Option String) (a : Appointment)
    (hfind : appts.find? (fun x => x.id == apptId) = some a) :
      (∀ role : String, a.patient ≠ actorId → role ≠ "admin" →
        remove appts apptId actorId role reason = .error .forbidden)
    ∧ (a.patient = actorId → typeEnum.contains a.type = true →
        remove appts apptId actorId "patient" reason
          = .ok (replaceById appts apptId (cancelUpd a "patient" reason))
        ∧ (replaceById appts apptId (cancelUpd a "patient" reason)).length = appts.length
        ∧ cancelUpd a "patient" reason ∈ replaceById appts apptId (cancelUpd a "patient" reason)
        ∧ (cancelUpd a "patient" reason).status = "cancelled"
        ∧ (cancelUpd a "patient" reason).cancelledBy = some "patient"
        ∧ (cancelUpd a "patient" reason).cancellationReason = jsOr reason "Cancelled by user")
    ∧ remove appts apptId actorId "admin" reason = .error .validationFailed := by
  refine ⟨?_, ?_, ?_⟩
  · intro role hnp hnr
    have hbp : (a.patient == actorId) = false := by simpa using hnp
    have hbr : (role == "admin") = false := by simpa using hnr
    simp [remove, hfind, hbp, hbr]
  · intro hp htype
    have hbp : (a.patient == actorId) = true := by simpa using hp
    have htype' : a.type ∈ typeEnum := by
      have h := htype
      rw [List.contains, List.elem_eq_mem, decide_eq_true_eq] at h
      exact h
    have hval : docEnumsValid (cancelUpd a "patient" reason) = true := by
      simp [docEnumsValid, cancelUpd, statusEnum, cancelledByEnum, htype']
    have hpa : a.id = apptId := by
      have := List.find?_some hfind
      simpa using this
    refine ⟨?_, ?_, ?_, rfl, rfl, rfl⟩
    · simp [remove, hfind, hbp, hval]
    · simp [replaceById]
    · unfold replaceById
      rw [List.mem_map]
      exact ⟨a, List.mem_of_find?_eq_some hfind, by simp [hpa]⟩
  · have hval : docEnumsValid (cancelUpd a "admin" reason) = false := by
      simp [docEnumsValid, cancelUpd, cancelledByEnum]
    simp [remove, hfind, hval]

/-- C9 counterexample: an admin (user 99) cancelling `aptP` — an
authorized call the claim says sets `status = cancelled` and
`cancelledBy = 'patient'` — actually fails schema validation (the
controller writes `cancelledBy = 'admin'`, not in the enum) and changes
nothing. -/
theorem cancel_admin_counterexample :
    remove [aptP] 1 99 "admin" none = .error .validationFailed := by decide

/-- C9 witness: the owning patient (user 7) cancels `aptP` with a reason;
the record is soft-cancelled in place. -/
theorem cancel_soft_delete_witness :
    typeEnum.contains aptP.type = true
    ∧ (remove [aptP] 1 7 "patient" (some "em")
        = .ok (replaceById [aptP] 1 (cancelUpd aptP "patient" (some "em")))
      ∧ (replaceById [aptP] 1 (cancelUpd aptP "patient" (some "em"))).length = [aptP].length
      ∧ cancelUpd aptP "patient" (some "em")
          ∈ replaceById [aptP] 1 (cancelUpd aptP "patient" (some "em"))
      ∧ (cancelUpd aptP "patient" (some "em")).status = "cancelled"
      ∧ (cancelUpd aptP "patient" (some "em")).cancelledBy = some "patient"
      ∧ (cancelUpd aptP "patient" (some "em")).cancellationReason
          = jsOr (some "em") "Cancelled by user") :=
  ⟨by decide, (cancel_soft_delete [aptP] 1 7 (some "em") aptP (by decide)).2.1
      (by decide) (by decide)⟩

/-- C8 (amended): field writes on update are gated by role.  A patient
actor not requesting cancellation can change only the patient notes
field; a doctor actor (not requesting cancellation, and sending a
schema-valid status if any) writes exactly status, doctor notes and
prescription; a cancellation request by the appointment's patient or
doctor additionally records `cancelledBy = actorRole` and
`cancellationReason` from the request; a cancellation request by an admin
stages `cancelledBy = 'admin'`, which the schema's enum rejects, so the
update fails validation and writes nothing. -/
theorem update_field_gating (doctors : List Doctor) (appts : List Appointment)
    (apptId actorUserId : Nat) (actorRole : String) (req : UpdateRequest) (a : Appointment)
    (hfind : appts.find? (fun x => x.id == apptId) = some a) :
      (a.patient = actorUserId → isDoctorOf doctors actorUserId a = false →
        req.status ≠ some "cancelled" →
        ∃ pa, pa = { a with notes := { a.notes with
                patient := if truthy req.notes then req.notes.getD "" else a.notes.patient } }
          ∧ update doctors appts apptId actorUserId actorRole req
              = .ok (pa, replaceById appts apptId pa))
    ∧ (a.patient ≠ actorUserId → isDoctorOf doctors actorUserId a = true →
        req.status ≠ some "cancelled" →
        (∀ s, req.status = some s → s ≠ "" → statusEnum.contains s = true) →
        ∃ pa, pa = { a with
                status := if truthy req.status then req.status.getD "" else a.status
                notes := { a.notes with
                  doctor := if truthy req.notes then req.notes.getD "" else a.notes.doctor }
                prescription := if truthy req.prescription then req.prescription else a.prescription }
          ∧ update doctors appts apptId actorUserId actorRole req
              = .ok (pa, replaceById appts apptId pa))
    ∧ ((a.patient = actorUserId ∨ isDoctorOf doctors actorUserId a = true) →
        (actorRole = "patient" ∨ actorRole = "doctor") →
        req.status = some "cancelled" →
        ∃ pa l, update doctors appts apptId actorUserId actorRole req = .ok (pa, l)
          ∧ pa.status = "cancelled"
          ∧ pa.cancelledBy = some actorRole
          ∧ pa.cancellationReason = jsOr req.reason "")
    ∧ (actorRole = "admin" → req.status = some "cancelled" →
        update doctors appts apptId actorUserId actorRole req = .error .validationFailed) := by
  refine ⟨?_, ?_, ?_, ?_⟩
  · intro hp hd hst
    have hbp : (a.patient == actorUserId) = true := by simpa using hp
    have hcu : computeUpdates true false actorRole req
        = if truthy req.notes then { notesPatient := req.notes } else {} := by
      unfold computeUpdates
      simp [hst]
    have hval : validUpdates (computeUpdates true false actorRole req) = true := by
      rw [hcu]
      by_cases hn : truthy req.notes = true
      · simp [hn, validUpdates]
      · rw [Bool.not_eq_true] at hn
        simp [hn, validUpdates]
    refine ⟨applyUpdates (computeUpdates true false actorRole req) a, ?_, ?_⟩
    · rw [hcu]
      cases hn : req.notes with
      | none => simp [applyUpdates, truthy]
      | some s =>
        by_cases hse : (s == "") = true
        · simp [applyUpdates, truthy, hse]
        · rw [Bool.not_eq_true] at hse
          simp [applyUpdates, truthy, hse]
    · simp only [update, hfind, hbp, hd, hval, Bool.not_true, Bool.false_and,
        Bool.false_eq_true, if_false, if_true]
  · intro hnp hd hst hvalid
    have hbp : (a.patient == actorUserId) = false := by simpa using hnp
    have hcu : computeUpdates false true actorRole req
        = { status := if truthy req.status then req.status else none
            notesDoctor := if truthy req.notes then req.notes else none
            prescription := if truthy req.prescription then req.prescription else none } := by
      unfold computeUpdates
      simp only [Bool.false_and, Bool.false_eq_true, if_false, if_true, if_neg hst]
      split_ifs <;> rfl
    have hval : validUpdates (computeUpdates false true actorRole req) = true := by
      rw [hcu]
      cases hs : req.status with
      | none => simp [validUpdates, truthy]
      | some s =>
        by_cases hse : (s == "") = true
        · simp [validUpdates, truthy, hse]
        · rw [Bool.not_eq_true] at hse
          have hse' : s ≠ "" := by simpa using hse
          have hc := hvalid s hs hse'
          have hc' : s ∈ statusEnum := by
            rw [List.contains, List.elem_eq_mem, decide_eq_true_eq] at hc
            exact hc
          simp [validUpdates, truthy, hse, hc']
    refine ⟨applyUpdates (computeUpdates false true actorRole req) a, ?_, ?_⟩
    · rw [hcu]
      unfold applyUpdates
      cases hs : req.status <;> cases hn : req.notes <;> cases hpr : req.prescription <;>
        simp [truthy] <;> split_ifs <;> simp_all
    · simp only [update, hfind, hbp, hd, hval, Bool.not_true, Bool.not_false,
        Bool.true_and, Bool.and_false, Bool.false_and, Bool.false_eq_true, if_false, if_true]
  · intro hauth hrole hst
    have hcu1 : (computeUpdates (a.patient == actorUserId)
        (isDoctorOf doctors actorUserId a) actorRole req).status = some "cancelled" := by
      unfold computeUpdates
      simp [hst]
    have hcu2 : (computeUpdates (a.patient == actorUserId)
        (isDoctorOf doctors actorUserId a) actorRole req).cancelledBy = some actorRole := by
      unfold computeUpdates
      simp [hst]
    have hcu3 : (computeUpdates (a.patient == actorUserId)
        (isDoctorOf doctors actorUserId a) actorRole req).cancellationReason
        = some (jsOr req.reason "") := by
      unfold computeUpdates
      simp [hst]
    have hcb : cancelledByEnum.contains actorRole = true := by
      rcases hrole with h | h <;> rw [h] <;> decide
    have hval : validUpdates (computeUpdates (a.patient == actorUserId)
        (isDoctorOf doctors actorUserId a) actorRole req) = true := by
      unfold validUpdates
      rw [hcu1, hcu2]
      have hsc : "cancelled" ∈ statusEnum := by decide
      have hcb' : actorRole ∈ cancelledByEnum := by
        rw [List.contains, List.elem_eq_mem, decide_eq_true_eq] at hcb
        exact hcb
      simp [hsc, hcb']
    have hcond : (!(a.patient == actorUserId) && !(isDoctorOf doctors actorUserId a)
        && !(actorRole == "admin")) = false := by
      rcases hauth with h | h
      · have hbp : (a.patient == actorUserId) = true := by simpa using h
        simp [hbp]
      · simp [h]
    refine ⟨applyUpdates (computeUpdates (a.patient == actorUserId)
        (isDoctorOf doctors actorUserId a) actorRole req) a,
      replaceById appts apptId (applyUpdates (computeUpdates (a.patient == actorUserId)
        (isDoctorOf doctors actorUserId a) actorRole req) a), ?_, ?_, ?_, ?_⟩
    · simp only [update, hfind, hcond, Bool.false_eq_true, if_false, hval, if_true]
    · simp [applyUpdates, hcu1]
    · simp [applyUpdates, hcu2]
    · simp [applyUpdates, hcu3]
  · intro hrole hst
    subst hrole
    have hcu2 : (computeUpdates (a.patient == actorUserId)
        (isDoctorOf doctors actorUserId a) "admin" req).cancelledBy = some "admin" := by
      unfold computeUpdates
      simp [hst]
    have hval : validUpdates (computeUpdates (a.patient == actorUserId)
        (isDoctorOf doctors actorUserId a) "admin" req) = false := by
      unfold validUpdates
      rw [hcu2]
      simp [cancelledByEnum]
    simp only [update, hfind, beq_self_eq_true, Bool.not_true, Bool.and_false,
      Bool.false_eq_true, if_false, hval]

/-- C8 counterexample: an admin (user 99, unrelated to `aptP`) requesting
`status = cancelled` — which the claim says records
`cancelledBy = actorRole` — stages `cancelledBy = 'admin'`, fails the
enum validation, and the update errors instead of recording anything. -/
theorem update_admin_cancel_counterexample :
    update [] [aptP] 1 99 "admin" reqCancel = .error .validationFailed
    ∧ (computeUpdates false false "admin" reqCancel).cancelledBy = some "admin"
    ∧ validUpdates (computeUpdates false false "admin" reqCancel) = false := by decide

/-- C8 witness: the owning patient cancels via update; the cancellation
bookkeeping is recorded with the actor's role. -/
theorem update_field_gating_witness :
    [aptP].find? (fun x => x.id == 1) = some aptP
    ∧ ∃ pa l, update [] [aptP] 1 7 "patient" reqCancel = .ok (pa, l)
        ∧ pa.status = "cancelled"
        ∧ pa.cancelledBy = some "patient"
        ∧ pa.cancellationReason = jsOr reqCancel.reason "" :=
  ⟨by decide, (update_field_gating [] [aptP] 1 7 "patient" reqCancel aptP (by decide)).2.2.1
      (Or.inl (by decide)) (Or.inl rfl) (by decide)⟩

theorem remove_ok_shape (appts : List Appointment) (apptId actorId : Nat)
    (role : String) (reason : Option String) (appts' : List Appointment)
    (h : remove appts apptId actorId role reason = .ok appts') :
    ∃ a, appts.find? (fun x => x.id == apptId) = some a
      ∧ appts' = replaceById appts apptId (cancelUpd a role reason) := by
  cases hfind : appts.find? (fun x => x.id == apptId) with
  | none => simp [remove, hfind] at h
  | some a =>
    refine ⟨a, rfl, ?_⟩
    by_cases hauth : (!(a.patient == actorId) && !(role == "admin")) = true
    · simp [remove, hfind, hauth] at h
    · rw [Bool.not_eq_true] at hauth
      by_cases hval : docEnumsValid (cancelUpd a role reason) = true
      · simp [remove, hfind, hauth, hval] at h
        exact h.symm
      · rw [Bool.not_eq_true] at hval
        simp [remove, hfind, hauth, hval] at h

/-- C1: the declared unique partial index on `(doctor, dateTime)` scoped
to `status != cancelled` rejects a second non-cancelled appointment at an
occupied `(doctor, dateTime)` key; and once the only holders of a key are
cancelled — in particular after a successful cancel of the sole holder —
a new non-cancelled appointment at the same key is accepted. -/
theorem uniqueIndex_prevents_double_booking :
      (∀ (appts : List Appointment) (a1 a2 : Appointment), a1 ∈ appts →
        a1.status ≠ "cancelled" → a2.status ≠ "cancelled" →
        a2.doctor = a1.doctor → a2.dateTime = a1.dateTime →
        insertAllowed appts a2 = false)
    ∧ (∀ (appts appts' : List Appointment) (a2 : Appointment)
        (apptId actorId : Nat) (reason : Option String),
        remove appts apptId actorId "patient" reason = .ok appts' →
        (∀ b ∈ appts, b.doctor = a2.doctor → b.dateTime = a2.dateTime → b.id = apptId) →
        insertAllowed appts' a2 = true) := by
  constructor
  · intro appts a1 a2 h1 hs1 hs2 hdoc hdt
    unfold insertAllowed
    rw [Bool.not_eq_false']
    have hu2 : inUniqueIndex a2 = true := by
      unfold inUniqueIndex
      simpa using hs2
    have hany : appts.any
        (fun b => inUniqueIndex b && b.doctor == a2.doctor && b.dateTime == a2.dateTime) = true := by
      rw [List.any_eq_true]
      refine ⟨a1, h1, ?_⟩
      have hu1 : inUniqueIndex a1 = true := by
        unfold inUniqueIndex
        simpa using hs1
      simp [hu1, hdoc, hdt]
    rw [hu2, hany]
    rfl
  · intro appts appts' a2 apptId actorId reason hrem hkeys
    obtain ⟨a, hfind, hshape⟩ := remove_ok_shape appts apptId actorId "patient" reason appts' hrem
    subst hshape
    unfold insertAllowed
    rw [Bool.not_eq_true']
    have hany : (replaceById appts apptId (cancelUpd a "patient" reason)).any
        (fun b => inUniqueIndex b && b.doctor == a2.doctor && b.dateTime == a2.dateTime)
        = false := by
      rw [List.any_eq_false]
      intro b' hb'
      unfold replaceById at hb'
      rw [List.mem_map] at hb'
      obtain ⟨b, hb, hbeq⟩ := hb'
      by_cases hbid : (b.id == apptId) = true
      · rw [if_pos hbid] at hbeq
        subst hbeq
        intro hp
        rw [Bool.and_eq_true, Bool.and_eq_true] at hp
        have : inUniqueIndex (cancelUpd a "patient" reason) = false := rfl
        rw [this] at hp
        exact Bool.false_ne_true hp.1.1
      · rw [Bool.not_eq_true] at hbid
        rw [if_neg (by simp [hbid])] at hbeq
        subst hbeq
        intro hp
        rw [Bool.and_eq_true, Bool.and_eq_true] at hp
        have hdoc : b.doctor = a2.doctor := by simpa using hp.1.2
        have hdt : b.dateTime = a2.dateTime := by simpa using hp.2
        have := hkeys b hb hdoc hdt
        rw [this] at hbid
        simp at hbid
    rw [hany, Bool.and_false]

/-- C1 witness: with `aptP` (pending, doctor 1, Monday 09:00) stored, the
index rejects `aptQ` at the same key; after the owning patient cancels
`aptP`, inserting `aptQ` is accepted. -/
theorem uniqueIndex_prevents_double_booking_witness :
    insertAllowed [aptP] aptQ = false
    ∧ insertAllowed (replaceById [aptP] 1 (cancelUpd aptP "patient" none)) aptQ = true :=
  ⟨uniqueIndex_prevents_double_booking.1 [aptP] aptP aptQ (by decide) (by decide)
      (by decide) (by decide) (by decide),
   uniqueIndex_prevents_double_booking.2 [aptP]
      (replaceById [aptP] 1 (cancelUpd aptP "patient" none)) aptQ 1 7 none
      (by decide) (by decide)⟩

end MediReach
